import Mathlib

/-!
Verification of the feather HTTP pipeline core (include/core.hpp and
include/feather/router.hpp): the `Conn` entity, its state machine, the
header/cookie/session/query mutators, and the router's dispatch algorithm.

The C++ code stores data in persistent collections (immer maps/vectors,
std multimaps).  The embedding models:
  * `immer::map<K, V>` as an association list with unique keys; `set` on an
    existing key replaces the value in place (as a CHAMP update keeps the
    entry's position), a fresh key is appended.  Only lookups and folds over
    these maps are relied on by the theorems; iteration order across distinct
    keys of an `immer::map` is hash-determined and unspecified, which is
    modelled explicitly (and only) where it matters: the scope registry of the
    router (`functional::multimap`), whose entry order is kept sorted by an
    abstract hash parameter.
  * `http::Headers` (a std multimap of strings) as a list of pairs in
    insertion order; per-key semantics (equal_range, erase of all values of a
    key, node extract/insert) is what the code relies on and is preserved.
  * C++ strings holding possibly invalid UTF-8 (the query string) as lists of
    byte values (`List Nat`); other strings as Lean `String`.
  * `std::stoi`/`std::stof`, which the code applies to numeric option strings,
    via a digit-string parser (`stoiNat`); option maps whose numeric options
    do not parse would make the C++ throw, and theorems restrict those
    options to the parsing domain.
-/

namespace Feather

/-- Model of `std::stoi`/`std::stof` on the nonnegative digit strings this
code passes them (`"length"`, `"max_age"` option values); on anything else
the C++ calls throw, which the option-map hypotheses of the theorems rule
out. -/
def stoiNat (s : String) : Option Nat :=
  if s.toList ≠ [] ∧ s.toList.all Char.isDigit then
    some (s.toList.foldl (fun n c => n * 10 + (c.toNat - 48)) 0)
  else none

/-- Lookup in an association list: the value of the first entry whose key is
`k` (models `immer::map::find` / first value of `functional::multimap`). -/
def alFind {β ν : Type} [DecidableEq β] (m : List (β × ν)) (k : β) : Option ν :=
  match m with
  | [] => none
  | (k', v) :: t => if k' = k then some v else alFind t k

/-- Set in an association list (models `immer::map::set`/`insert` which
replace the value of an existing key in place; a fresh key is appended). -/
def alSet {β ν : Type} [DecidableEq β] (m : List (β × ν)) (k : β) (v : ν) : List (β × ν) :=
  match m with
  | [] => [(k, v)]
  | (k', v') :: t => if k' = k then (k, v) :: t else (k', v') :: alSet t k v

/-- Remove a key from an association list (models `immer::map::erase`). -/
def alErase {β ν : Type} [DecidableEq β] (m : List (β × ν)) (k : β) : List (β × ν) :=
  match m with
  | [] => []
  | (k', v') :: t => if k' = k then alErase t k else (k', v') :: alErase t k

/-- Replace the value of a key by `f` applied to it when the key is present,
return the list unchanged otherwise (models `immer::map::update_if_exists`). -/
def alUpdateIfExists {β ν : Type} [DecidableEq β] (m : List (β × ν)) (k : β) (f : ν → ν) :
    List (β × ν) :=
  match m with
  | [] => []
  | (k', v') :: t => if k' = k then (k', f v') :: t else (k', v') :: alUpdateIfExists t k f

/-- A string-keyed map of strings, the model of `ImmutMapString`. -/
abbrev SMap := List (String × String)

/-- Model of `functional::merge`: `map1` with every entry of `map2` set into
it, so `map2`'s value wins on a common key. -/
def smMerge (map1 map2 : SMap) : SMap :=
  map2.foldl (fun acc kv => alSet acc kv.1 kv.2) map1

/-- Model of `http::Headers` (multimap of strings): a list of pairs in
insertion order. -/
abbrev Headers := List (String × String)

/-- Erase every entry of a key (models `multimap::erase(key)`). -/
def hdrErase (hs : Headers) (key : String) : Headers :=
  hs.filter (fun p => !(p.1 == key))

/-- Append one header entry (models `multimap::insert`, which never replaces;
per-key insertion order is preserved). -/
def hdrInsert (hs : Headers) (key value : String) : Headers :=
  hs ++ [(key, value)]

/-- Remove the first entry of a key and return its value together with the
remaining headers (models `multimap::extract(key)` of a non-empty handle). -/
def hdrExtract (hs : Headers) (key : String) : Option (String × Headers) :=
  match hs with
  | [] => none
  | (k, v) :: t =>
    if k = key then some (v, t)
    else (hdrExtract t key).map (fun p => (p.1, (k, v) :: p.2))

/-- The `Unsent` enumeration of `ConnState` (core.hpp). -/
inductive Unsent where
  | UNSET
  | SET
  | SET_CHUNKED
  | SET_FILE
  | FILE
  | CHUNKED
  | SENT
  | UPGRADED
deriving DecidableEq, Repr

/-- The `ConnState` variant: the terminal tag `Sent` or an `Unsent` value. -/
inductive ConnState where
  | sent : ConnState
  | unsent : Unsent → ConnState
deriving DecidableEq, Repr

/-- The state guard repeated by the header/status mutators:
`std::holds_alternative<Sent>(state) || state == Unsent::CHUNKED ||
state == Unsent::UPGRADED`. -/
def guardedState (s : ConnState) : Bool :=
  match s with
  | ConnState.sent => true
  | ConnState.unsent u => u = Unsent.CHUNKED || u = Unsent.UPGRADED

/-- The `SessionOpt` enumeration. -/
inductive SessionOpt where
  | WRITE
  | RENEW
  | DROP
  | IGNORE
deriving DecidableEq, Repr

/-- The `ResultType` tag of `Result` values. -/
inductive ResultType where
  | Ok
  | Err
  | More
deriving DecidableEq, Repr

/-- Whitespace as classified by `std::isspace` in the C locale, used by
`boost::trim_copy`. -/
def isSpaceC (ch : Char) : Bool :=
  ch = ' ' || ch = '\t' || ch = '\n' || ch = '\x0b' || ch = '\x0c' || ch = '\r'

/-- Model of `boost::trim_copy`: drop leading and trailing whitespace. -/
def trimC (l : List Char) : List Char :=
  ((l.dropWhile isSpaceC).reverse.dropWhile isSpaceC).reverse

/-- Split a list at a separator, keeping the (possibly empty) chunks. -/
def splitSepAux {β : Type} [DecidableEq β] (sep : β) : List β → List β → List (List β)
  | [], acc => [acc.reverse]
  | b :: t, acc =>
    if b = sep then acc.reverse :: splitSepAux sep t [] else splitSepAux sep t (b :: acc)

/-- Model of a `boost::tokenizer` with a single-character separator: split at
the separator and drop empty tokens (`char_separator` drops them). -/
def splitSep {β : Type} [DecidableEq β] (sep : β) (l : List β) : List (List β) :=
  (splitSepAux sep l []).filter (fun t => !t.isEmpty)

/-- Index of the first occurrence of an element (models `std::string::find`
of a single character). -/
def idxOf1 {β : Type} [DecidableEq β] (x : β) : List β → Option Nat
  | [] => none
  | b :: t => if b = x then some 0 else (idxOf1 x t).map (fun i => i + 1)

/-- Model of `ParseCookie` (core.hpp): split the cookie header at `;`
(dropping empty tokens), keep `key=value` tokens, trim both sides, drop keys
whose first character is uppercase (cookie attributes), set the rest. -/
def ParseCookie (cookie : String) : SMap :=
  (splitSep ';' cookie.toList).foldl
    (fun map tok =>
      match idxOf1 '=' tok with
      | none => map
      | some equalPos =>
        let key := trimC (tok.take equalPos)
        let value := trimC (tok.drop (equalPos + 1))
        match key with
        | [] => alSet map (String.mk key) (String.mk value)
        | c :: _ => if c.isUpper then map else alSet map (String.mk key) (String.mk value))
    []

/-- Trail-byte count of a UTF-8 lead byte, `none` for an illegal lead
(models `boost::locale::utf::utf_traits<char>::trail_length`). -/
def trailLength (b : Nat) : Option Nat :=
  if b < 0x80 then some 0
  else if b < 0xC2 then none
  else if b ≤ 0xDF then some 1
  else if b ≤ 0xEF then some 2
  else if b ≤ 0xF4 then some 3
  else none

/-- Is a byte a UTF-8 continuation byte. -/
def isTrail (b : Nat) : Bool := 0x80 ≤ b && b ≤ 0xBF

/-- Encoded width a code point needs, for the overlong check. -/
def utf8Width (v : Nat) : Nat :=
  if v < 0x80 then 1 else if v < 0x800 then 2 else if v < 0x10000 then 3 else 4

/-- The payload bits of a UTF-8 lead byte with `n` trail bytes. -/
def leadValue (b n : Nat) : Nat :=
  match n with
  | 0 => b
  | 1 => b - 0xC0
  | 2 => b - 0xE0
  | _ => b - 0xF0

/-- Consume `n` continuation bytes, accumulating the code point. -/
def utf8Trails : Nat → Nat → List Nat → Option (Nat × List Nat)
  | v, 0, rest => some (v, rest)
  | _, _ + 1, [] => none
  | v, n + 1, b :: rest =>
    if isTrail b then utf8Trails (v * 64 + (b - 0x80)) n rest else none

/-- One fuelled pass of the strict UTF-8 validity check: each step consumes at
least the lead byte, so fuel equal to the length suffices. -/
def validUtf8Fuel : Nat → List Nat → Bool
  | _, [] => true
  | 0, _ :: _ => false
  | fuel + 1, b :: rest =>
    match trailLength b with
    | none => false
    | some n =>
      match utf8Trails (leadValue b n) n rest with
      | none => false
      | some (v, rest') =>
        decide (v ≤ 0x10FFFF) && !(decide (0xD800 ≤ v) && decide (v ≤ 0xDFFF)) &&
          decide (utf8Width v = n + 1) && validUtf8Fuel fuel rest'

/-- Strict UTF-8 validity of a byte sequence, the property checked by the
`boost::locale::utf::utf_traits<char>::decode` loop of `fetch_query_params`
(illegal and incomplete sequences are both rejected). -/
def validUtf8 (l : List Nat) : Bool := validUtf8Fuel l.length l

/-- The `Conn` struct of core.hpp.  `α` is the type of `std::any` payloads
(assigns and session values), `κ` the payload of the `before_send` callback
closures; the session pointers are modelled by the `CookieSession` storage
they point to (an immutable map).  The shared-string request fields are plain
values; `resp_body` is optional because the `SharedString` is null until
`resp` sets it.  The query string is kept as raw bytes (C++ `std::string`
holds arbitrary bytes and `fetch_query_params` validates UTF-8 itself). -/
structure Conn (α κ : Type) where
  session : List (String × α)
  session_copy : List (String × α)
  session_info : SessionOpt
  host : String
  method : String
  path_info : List String
  script_name : List String
  request_url : String
  request_path : String
  port : Option Int
  remote_ip : List Nat
  req_headers : Headers
  scheme : String
  query_string : List Nat
  req_body : String
  cookies : Option SMap
  req_cookies : Option SMap
  body_params : Option SMap
  query_params : Option (List (List Nat × List Nat))
  resp_body : Option String
  resp_cookies : List (String × SMap)
  resp_headers : Headers
  status : Option Nat
  callbacks_before_send : List κ
  assigns : List (String × α)
  owner : Nat
  halted : Bool
  secret_key_base : String
  state : ConnState
deriving DecidableEq

variable {α κ : Type}

/-- `Conn::assign`: set a key in the assigns bag of a copy. -/
def Conn.assign (conn : Conn α κ) (key : String) (value : α) : Conn α κ :=
  { conn with assigns := alSet conn.assigns key value }

/-- `Conn::merge_assigns`: set every pair of the argument map into the
assigns bag of a copy. -/
def Conn.merge_assigns (conn : Conn α κ) (new_assigns : List (String × α)) : Conn α κ :=
  { conn with assigns := new_assigns.foldl (fun m kv => alSet m kv.1 kv.2) conn.assigns }

/-- `Conn::put_session` (public three-argument form): route the write through
the session interface of the working copy; the original session and the
`session_info` flag are untouched. -/
def Conn.put_session (conn : Conn α κ) (key : String) (value : α) : Conn α κ :=
  { conn with session_copy := alSet conn.session_copy key value }

/-- `Conn::delete_session`: erase a key from the working session copy. -/
def Conn.delete_session (conn : Conn α κ) (key : String) : Conn α κ :=
  { conn with session_copy := alErase conn.session_copy key }

/-- `Conn::clear_session`: the private put_session helper applies
`reset_session` (an empty session) and marks `session_info = WRITE`. -/
def Conn.clear_session (conn : Conn α κ) : Conn α κ :=
  { conn with session_copy := [], session_info := SessionOpt.WRITE }

/-- `Conn::halt`: set the halted flag on a copy. -/
def Conn.halt (conn : Conn α κ) : Conn α κ :=
  { conn with halted := true }

/-- `Conn::put_req_header`: guarded by sent/chunked/upgraded; `"host"` keys
update the host field, anything else replaces all values of the key. -/
def Conn.put_req_header (conn : Conn α κ) (key value : String) : ResultType × Conn α κ :=
  if guardedState conn.state then (ResultType.Err, conn)
  else if key = "host" then (ResultType.Ok, { conn with host := value })
  else (ResultType.Ok,
    { conn with req_headers := hdrInsert (hdrErase conn.req_headers key) key value })

/-- `Conn::update_req_header`: guarded; extract the first value of the key,
set it to `initial` when absent and to `func` of the old value otherwise. -/
def Conn.update_req_header (conn : Conn α κ) (key initial : String)
    (func : String → String) : ResultType × Conn α κ :=
  if guardedState conn.state then (ResultType.Err, conn)
  else
    match hdrExtract conn.req_headers key with
    | none => (ResultType.Ok, { conn with req_headers := hdrInsert conn.req_headers key initial })
    | some (old, rest) => (ResultType.Ok, { conn with req_headers := hdrInsert rest key (func old) })

/-- `Conn::prepend_req_headers`: guarded; a `"host"` entry of the argument is
routed to the host field and removed, the rest is merged into the request
headers without removing existing entries. -/
def Conn.prepend_req_headers (conn : Conn α κ) (headers : Headers) : ResultType × Conn α κ :=
  if guardedState conn.state then (ResultType.Err, conn)
  else
    match alFind headers "host" with
    | some hostVal => (ResultType.Ok,
        { conn with host := hostVal, req_headers := conn.req_headers ++ hdrErase headers "host" })
    | none => (ResultType.Ok, { conn with req_headers := conn.req_headers ++ headers })

/-- `Conn::merge_req_headers`: guarded; a `"host"` entry is routed to the host
field, each remaining entry erases all values of its key and is inserted. -/
def Conn.merge_req_headers (conn : Conn α κ) (headers : Headers) : ResultType × Conn α κ :=
  if guardedState conn.state then (ResultType.Err, conn)
  else
    match alFind headers "host" with
    | some hostVal => (ResultType.Ok,
        { conn with host := hostVal,
                    req_headers := (hdrErase headers "host").foldl
                      (fun acc kv => hdrInsert (hdrErase acc kv.1) kv.1 kv.2) conn.req_headers })
    | none => (ResultType.Ok,
        { conn with req_headers := headers.foldl
                      (fun acc kv => hdrInsert (hdrErase acc kv.1) kv.1 kv.2)
                      conn.req_headers })

/-- `Conn::delete_req_header`: guarded only by the `Sent` alternative (the
chunked/upgraded states are not checked in the source). -/
def Conn.delete_req_header (conn : Conn α κ) (key : String) : ResultType × Conn α κ :=
  if conn.state = ConnState.sent then (ResultType.Err, conn)
  else (ResultType.Ok, { conn with req_headers := hdrErase conn.req_headers key })

/-- `Conn::put_resp_header`: guarded by sent/chunked/upgraded and by the
header-injection check rejecting values containing a newline or a carriage
return; on success every value of the key is replaced. -/
def Conn.put_resp_header (conn : Conn α κ) (key value : String) : ResultType × Conn α κ :=
  if guardedState conn.state || value.toList.contains '\n' || value.toList.contains '\r' then
    (ResultType.Err, conn)
  else (ResultType.Ok,
    { conn with resp_headers := hdrInsert (hdrErase conn.resp_headers key) key value })

/-- `Conn::merge_resp_headers`: guarded; each entry erases all values of its
key and is inserted. -/
def Conn.merge_resp_headers (conn : Conn α κ) (headers : Headers) : ResultType × Conn α κ :=
  if guardedState conn.state then (ResultType.Err, conn)
  else (ResultType.Ok,
    { conn with resp_headers := headers.foldl
                  (fun acc kv => hdrInsert (hdrErase acc kv.1) kv.1 kv.2)
                  conn.resp_headers })

/-- `Conn::prepend_resp_header`: guarded; the argument headers are merged into
the response headers without removing existing entries. -/
def Conn.prepend_resp_header (conn : Conn α κ) (headers : Headers) : ResultType × Conn α κ :=
  if guardedState conn.state then (ResultType.Err, conn)
  else (ResultType.Ok, { conn with resp_headers := conn.resp_headers ++ headers })

/-- `Conn::update_resp_header`: guarded; like `update_req_header` on the
response side. -/
def Conn.update_resp_header (conn : Conn α κ) (key initial : String)
    (func : String → String) : ResultType × Conn α κ :=
  if guardedState conn.state then (ResultType.Err, conn)
  else
    match hdrExtract conn.resp_headers key with
    | none => (ResultType.Ok, { conn with resp_headers := hdrInsert conn.resp_headers key initial })
    | some (old, rest) =>
      (ResultType.Ok, { conn with resp_headers := hdrInsert rest key (func old) })

/-- `Conn::delete_resp_header`: guarded; erase all values of the key. -/
def Conn.delete_resp_header (conn : Conn α κ) (key : String) : ResultType × Conn α κ :=
  if guardedState conn.state then (ResultType.Err, conn)
  else (ResultType.Ok, { conn with resp_headers := hdrErase conn.resp_headers key })

/-- `Conn::put_status`: guarded write of the status code. -/
def Conn.put_status (conn : Conn α κ) (status : Nat) : ResultType × Conn α κ :=
  if guardedState conn.state then (ResultType.Err, conn)
  else (ResultType.Ok, { conn with status := some status })

/-- `Conn::put_resp_content_type`: builds the content string (no charset
suffix for the `"none"` sentinel) and `unwrap`s the `put_resp_header` result,
so a guard failure surfaces as the `unwrap` exception, not as an `Err`. -/
def Conn.put_resp_content_type (conn : Conn α κ) (content_type charset : String) :
    Except String (Conn α κ) :=
  match Conn.put_resp_header conn "Content-Type"
      (if charset = "none" then content_type
       else content_type ++ "; charset=" ++ charset) with
  | (ResultType.Err, _) => Except.error "unwrap a result on error"
  | (_, c) => Except.ok c

/-- `Conn::put_resp_cookie`: no state guard.  Reads the sign/encrypt flags,
strips them from the stored options, fails when both are present, otherwise
stores the options with `value = key + "_cookie=" + value` under the cookie
name.  The parsed-but-unused `max_age` option (`std::stoi`, default 86400) is
dead code and omitted; theorems quantifying over options restrict `max_age`
to the numeric strings `std::stoi` accepts. -/
def Conn.put_resp_cookie (conn : Conn α κ) (key value : String) (opts : SMap) :
    ResultType × Conn α κ :=
  if (alFind opts "sign").isSome && (alFind opts "encrypt").isSome then (ResultType.Err, conn)
  else
    (ResultType.Ok,
      { conn with resp_cookies := alSet conn.resp_cookies key
                    (alSet (alErase (alErase opts "sign") "encrypt") "value"
                      (key ++ "_cookie=" ++ value)) })

/-- `Conn::delete_resp_cookie`: no state guard and no result; overwrite the
staged attribute map of the key (when present) with the given options plus
the epoch `universal_time`, `max_age = "0"` and, for an https scheme,
`secure = "true"`; a key that was never staged is left alone
(`update_if_exists`). -/
def Conn.delete_resp_cookie (conn : Conn α κ) (key : String) (opts : SMap) : Conn α κ :=
  let opts1 := alSet opts "universal_time" "Thu, 01 Jan 1970 00:00:00 GMT"
  let opts2 := alSet opts1 "max_age" "0"
  let opts3 := if conn.scheme = "https" then alSet opts2 "secure" "true" else opts2
  { conn with resp_cookies := alUpdateIfExists conn.resp_cookies key (fun _ => opts3) }

/-- `Conn::fetch_cookies`: a no-op when `req_cookies` is already populated;
otherwise parse every request header literally tagged `cookie` (later headers
win on conflicts via `functional::merge`), then overlay the staged response
cookies: a staged map carrying a `value` sets the cookie, one without removes
it.  The `signed`/`encrypted` options are accepted but currently do
nothing. -/
def Conn.fetch_cookies (conn : Conn α κ) (opts : List String) : Conn α κ :=
  if conn.req_cookies.isSome then conn
  else
    let req_cookies := conn.req_headers.foldl
      (fun acc p => if p.1 = "cookie" then smMerge acc (ParseCookie p.2) else acc) []
    let cookies := conn.resp_cookies.foldl
      (fun acc cookie =>
        match alFind cookie.2 "value" with
        | some v => alSet acc cookie.1 v
        | none => alErase acc cookie.1)
      req_cookies
    { conn with req_cookies := some req_cookies, cookies := some cookies }

/-- The per-pair loop of `fetch_query_params`: for each `&`-token, re-read the
validate flag (the source looks the flag up under the `"length"` key, not
`"validate_utf8"`), fail with 414 when the token has no `=` or, with
validation on, is not valid UTF-8; otherwise set the key/value split at the
first `=`.  `none` models the early 414 return, which discards the pairs
collected so far. -/
def fqpLoop (opts : SMap) : List (List Nat) → List (List Nat × List Nat) →
    Option (List (List Nat × List Nat))
  | [], acc => some acc
  | param :: rest, acc =>
    match idxOf1 61 param with
    | none => none
    | some equalSign =>
      if (match alFind opts "length" with
          | some s => if s = "false" then "false" else "true"
          | none => "true") = "true" && !(validUtf8 param) then none
      else fqpLoop opts rest (alSet acc (param.take equalSign) (param.drop (equalSign + 1)))

/-- `Conn::fetch_query_params`: a no-op when `query_params` is already
populated.  Otherwise: read the `length` option (`std::stof`, default
1000000) and return with status 414 when the query string is longer, without
parsing; then tokenize at `&` (byte 38, empty tokens dropped) and run the
per-pair loop, whose failure also returns with status 414 and no
`query_params`. -/
def Conn.fetch_query_params (conn : Conn α κ) (opts : SMap) : Conn α κ :=
  if conn.query_params.isSome then conn
  else if conn.query_string.length >
      (match alFind opts "length" with
       | some s => (stoiNat s).getD 0
       | none => 1000000) then
    { conn with status := some 414 }
  else
    match fqpLoop opts (splitSep 38 conn.query_string) [] with
    | none => { conn with status := some 414 }
    | some qp => { conn with query_params := some qp }

/-- `Conn::register_before_send`: throws `std::logic_error` when the state is
`Sent`, otherwise appends the callback (callbacks run in registration
order). -/
def Conn.register_before_send (conn : Conn α κ) (callback : κ) : Except String (Conn α κ) :=
  if conn.state = ConnState.sent then Except.error "Conn already sent"
  else Except.ok
    { conn with callbacks_before_send := conn.callbacks_before_send ++ [callback] }

/-- `Conn::resp`: throws `std::logic_error` when the state is sent, chunked or
upgraded; otherwise sets the state to `Unsent::SET`, the status and the
body. -/
def Conn.resp (conn : Conn α κ) (status : Nat) (body : String) : Except String (Conn α κ) :=
  if guardedState conn.state then Except.error "Conn already sent"
  else Except.ok
    { conn with state := ConnState.unsent Unsent.SET,
                status := some status,
                resp_body := some body }

/-- `Conn::upgrade_conn`: no state check at all; forces status 426, inserts
the `Upgrade`/`Connection: Upgrade` response headers (multimap insert, which
appends) and moves the state to `Unsent::UPGRADED`. -/
def Conn.upgrade_conn (conn : Conn α κ) (protocol : String) : Conn α κ :=
  { conn with
      status := some 426,
      resp_headers := hdrInsert (hdrInsert conn.resp_headers "Upgrade" protocol)
        "Connection" "Upgrade",
      state := ConnState.unsent Unsent.UPGRADED }

/-- The `"length"` option, when present, is a string `std::stof` accepts: the
theorems about `fetch_query_params` restrict its option map to this domain
(elsewhere the C++ would throw before the modelled behaviour is reached). -/
def LengthNum (opts : SMap) : Prop :=
  match alFind opts "length" with
  | none => True
  | some s => (stoiNat s).isSome = true

/-- The `"max_age"` option, when present, is a string `std::stoi` accepts:
the theorems about `put_resp_cookie` restrict its option map to this
domain. -/
def MaxAgeNum (opts : SMap) : Prop :=
  match alFind opts "max_age" with
  | none => True
  | some s => (stoiNat s).isSome = true

instance (opts : SMap) : Decidable (LengthNum opts) := by
  unfold LengthNum
  cases alFind opts "length" <;> exact inferInstance

instance (opts : SMap) : Decidable (MaxAgeNum opts) := by
  unfold MaxAgeNum
  cases alFind opts "max_age" <;> exact inferInstance

/-- Index of the first occurrence of `pat` in `hay`
(models `std::string::find` of a string; an empty pattern matches at 0). -/
def listFindSub {β : Type} [DecidableEq β] (hay pat : List β) : Option Nat :=
  if pat.isPrefixOf hay then some 0
  else
    match hay with
    | [] => none
    | _ :: t => (listFindSub t pat).map (fun i => i + 1)

/-- `std::string::find` on the embedding's strings. -/
def strFindSub (s pat : String) : Option Nat := listFindSub s.toList pat.toList

/-- `std::string::substr(pos)` on the embedding's strings. -/
def substrFrom (s : String) (pos : Nat) : String := String.mk (s.toList.drop pos)

/-- The `Scope` struct of feather/router.hpp: one composed pipeline plug and
four method-keyed route tables mapping an exact path to a handler; a route
registered with a null `HttpHandler` is `some none`. -/
structure Scope (α κ : Type) where
  pipeline : Conn α κ → Conn α κ
  get : List (String × Option (Conn α κ → Conn α κ))
  post : List (String × Option (Conn α κ → Conn α κ))
  put : List (String × Option (Conn α κ → Conn α κ))
  del : List (String × Option (Conn α κ → Conn α κ))

/-- The scope registry, `functional::multimap<std::string, Scope>`: an
`immer::map<std::string, std::vector<Scope>>`.  `entries` is the map in its
iteration order.  An `immer::map` is a hash trie: iterating it visits keys in
an order determined by their hashes, not by insertion (spec section 4.1 calls
it a "stable but unspecified key order"), and setting an existing key keeps
its position.  The embedding makes the hash explicit: entries are kept sorted
by an abstract hash parameter `h`, supplied at insertion. -/
structure Multimap (ν : Type) where
  entries : List (String × List ν)

/-- Place a fresh key at its hash-determined position. -/
def insertByHash {ν : Type} (h : String → Nat) (k : String) (vs : List ν) :
    List (String × List ν) → List (String × List ν)
  | [] => [(k, vs)]
  | e :: t => if h k < h e.1 then (k, vs) :: e :: t else e :: insertByHash h k vs t

/-- `functional::multimap::insert`: append the value to the vector of an
existing key (keeping the entry where it is), or create a singleton vector at
the hash-determined position of the new key. -/
def Multimap.insert {ν : Type} (h : String → Nat) (m : Multimap ν) (kv : String × ν) :
    Multimap ν :=
  if (alFind m.entries kv.1).isSome then
    ⟨m.entries.map (fun e => if e.1 = kv.1 then (e.1, e.2 ++ [kv.2]) else e)⟩
  else ⟨insertByHash h kv.1 [kv.2] m.entries⟩

/-- The vector of values registered under a key (empty when absent). -/
def Multimap.lookupAll {ν : Type} (m : Multimap ν) (k : String) : List ν :=
  (alFind m.entries k).getD []

/-- The `Router` singleton's data: named pipelines and the scope registry. -/
structure Router (α κ : Type) where
  pipelines : List (String × List (Conn α κ → Conn α κ))
  scopes : Multimap (Scope α κ)

/-- `Router::scope`: register a built scope under a prefix name (the
`IntoScope` callback has already been applied to an empty `Scope`). -/
def Router.scope (h : String → Nat) (router : Router α κ) (name : String)
    (s : Scope α κ) : Router α κ :=
  { router with scopes := router.scopes.insert h (name, s) }

/-- The method/route-table cascade of one scope inside `Router::handler`: the
first `method == ".." && table.find(path) != nullptr` branch that hits
returns its registered handler (possibly the null handler). -/
def scopeRoute (s : Scope α κ) (method path : String) :
    Option (Option (Conn α κ → Conn α κ)) :=
  if method == "get" && (alFind s.get path).isSome then alFind s.get path
  else if method == "post" && (alFind s.post path).isSome then alFind s.post path
  else if method == "put" && (alFind s.put path).isSome then alFind s.put path
  else if method == "delete" && (alFind s.del path).isSome then alFind s.del path
  else none

/-- The inner loop of `Router::handler` over the scopes sharing a prefix: the
first scope whose route table matches returns the pipeline output (null
handler) or the handler applied to the pipeline output. -/
def scopesDispatch (scopes : List (Scope α κ)) (method path : String)
    (conn : Conn α κ) : Option (Conn α κ) :=
  match scopes with
  | [] => none
  | s :: rest =>
    match scopeRoute s method path with
    | some none => some (s.pipeline conn)
    | some (some handler) => some (handler (s.pipeline conn))
    | none => scopesDispatch rest method path conn

/-- The outer loop of `Router::handler` over the registry entries: a scope id
matches when it occurs anywhere in the request path (substring search); the
looked-up path is the suffix of the request path from the match on.  When no
entry returns, the connection is returned unchanged. -/
def handlerGo (entries : List (String × List (Scope α κ))) (conn : Conn α κ) : Conn α κ :=
  match entries with
  | [] => conn
  | (scope_id, scopes) :: rest =>
    match strFindSub conn.request_path scope_id with
    | none => handlerGo rest conn
    | some path_start =>
      match scopesDispatch scopes conn.method (substrFrom conn.request_path path_start) conn with
      | some res => res
      | none => handlerGo rest conn

/-- `Router::handler`: dispatch a connection through the registry of the
router instance. -/
def Router.handler (router : Router α κ) (conn : Conn α κ) : Conn α κ :=
  handlerGo router.scopes.entries conn

/-- A concrete connection in the freshly constructed state (`Unsent::UNSET`),
used to instantiate witnesses. -/
def conn0 : Conn Nat Nat :=
  { session := [], session_copy := [], session_info := SessionOpt.IGNORE,
    host := "", method := "get", path_info := [], script_name := [],
    request_url := "/", request_path := "/", port := none, remote_ip := [127, 0, 0, 1],
    req_headers := [], scheme := "", query_string := [], req_body := "",
    cookies := none, req_cookies := none, body_params := none, query_params := none,
    resp_body := none, resp_cookies := [], resp_headers := [], status := none,
    callbacks_before_send := [], assigns := [], owner := 0, halted := false,
    secret_key_base := "", state := ConnState.unsent Unsent.UNSET }

/-- The concrete connection after the transport adapter marked it sent. -/
def connSent : Conn Nat Nat := { conn0 with state := ConnState.sent }

/-- A concrete connection in the chunked state. -/
def connChunked : Conn Nat Nat := { conn0 with state := ConnState.unsent Unsent.CHUNKED }

/-- A concrete connection whose query string is `a=` followed by the byte
0xFF, which is not valid UTF-8. -/
def connBadUtf8 : Conn Nat Nat := { conn0 with query_string := [97, 61, 255] }

/-- A hash stand-in for the scope registry model: any concrete function is an
admissible instantiation of the unspecified `std::hash`. -/
def hashLen : String → Nat := String.length

/-- Scope registered first, under the id `"/ab"`, routing GET `/ab`. -/
def scopeAB : Scope Nat Nat :=
  { pipeline := fun c => c,
    get := [("/ab", some (fun c => { c with status := some 1 }))],
    post := [], put := [], del := [] }

/-- Scope registered second, under the id `"/a"`, also routing GET `/ab`
(the suffix from the substring match of `"/a"` in `"/ab"` is `"/ab"`). -/
def scopeA : Scope Nat Nat :=
  { pipeline := fun c => c,
    get := [("/ab", some (fun c => { c with status := some 2 }))],
    post := [], put := [], del := [] }

/-- A router with `scopeAB` registered before `scopeA`. -/
def routerC7 : Router Nat Nat :=
  Router.scope hashLen
    (Router.scope hashLen { pipelines := [], scopes := ⟨[]⟩ } "/ab" scopeAB)
    "/a" scopeA

/-- A GET request for `/ab`. -/
def connAB : Conn Nat Nat := { conn0 with method := "get", request_path := "/ab" }

theorem alFind_alSet_self {β ν : Type} [DecidableEq β] (m : List (β × ν)) (k : β) (v : ν) :
    alFind (alSet m k v) k = some v := by
  induction m with
  | nil => simp [alSet, alFind]
  | cons e t ih =>
    by_cases h : e.1 = k
    · simp [alSet, alFind, h]
    · simp [alSet, alFind, h, ih]

theorem alFind_alSet_ne {β ν : Type} [DecidableEq β] (m : List (β × ν)) (k₁ k₂ : β) (v : ν)
    (h : k₁ ≠ k₂) : alFind (alSet m k₁ v) k₂ = alFind m k₂ := by
  induction m with
  | nil => simp [alSet, alFind, h]
  | cons e t ih =>
    by_cases he : e.1 = k₁
    · simp [alSet, alFind, he, h]
    · simp [alSet, alFind, he, ih]

theorem alFind_alErase_self {β ν : Type} [DecidableEq β] (m : List (β × ν)) (k : β) :
    alFind (alErase m k) k = none := by
  induction m with
  | nil => simp [alErase, alFind]
  | cons e t ih =>
    by_cases h : e.1 = k
    · simp [alErase, h, ih]
    · simp [alErase, alFind, h, ih]

theorem alFind_alErase_ne {β ν : Type} [DecidableEq β] (m : List (β × ν)) (k₁ k₂ : β)
    (h : k₁ ≠ k₂) : alFind (alErase m k₁) k₂ = alFind m k₂ := by
  induction m with
  | nil => simp [alErase]
  | cons e t ih =>
    by_cases he : e.1 = k₁
    · have : e.1 ≠ k₂ := by rw [he]; exact h
      simp [alErase, alFind, he, ih, this, h]
    · simp [alErase, alFind, he, ih]

theorem alFind_alUpdateIfExists_self {β ν : Type} [DecidableEq β] (m : List (β × ν)) (k : β)
    (f : ν → ν) : alFind (alUpdateIfExists m k f) k = (alFind m k).map f := by
  induction m with
  | nil => simp [alUpdateIfExists, alFind]
  | cons e t ih =>
    by_cases h : e.1 = k
    · simp [alUpdateIfExists, alFind, h]
    · simp [alUpdateIfExists, alFind, h, ih]

theorem alUpdateIfExists_absent {β ν : Type} [DecidableEq β] (m : List (β × ν)) (k : β)
    (f : ν → ν) (h : alFind m k = none) : alUpdateIfExists m k f = m := by
  induction m with
  | nil => simp [alUpdateIfExists]
  | cons e t ih =>
    by_cases he : e.1 = k
    · simp [alFind, he] at h
    · simp [alFind, he] at h
      simp [alUpdateIfExists, he, ih h]

theorem alFind_mapAppend {ν : Type} (l : List (String × List ν)) (k : String) (v : ν) :
    alFind (l.map (fun e => if e.1 = k then (e.1, e.2 ++ [v]) else e)) k
      = (alFind l k).map (fun vs => vs ++ [v]) := by
  induction l with
  | nil => simp [alFind]
  | cons e t ih =>
    simp only [List.map_cons]
    by_cases h : e.1 = k
    · rw [if_pos h]
      simp [alFind, h, ih]
    · rw [if_neg h]
      simp [alFind, h, ih]

theorem alFind_insertByHash_self {ν : Type} (h : String → Nat) (k : String) (vs : List ν)
    (l : List (String × List ν)) (hab : alFind l k = none) :
    alFind (insertByHash h k vs l) k = some vs := by
  induction l with
  | nil => simp [insertByHash, alFind]
  | cons e t ih =>
    by_cases he : e.1 = k
    · simp [alFind, he] at hab
    · simp [alFind, he] at hab
      by_cases hh : h k < h e.1
      · simp [insertByHash, hh, alFind]
      · simp [insertByHash, hh, alFind, he, ih hab]

/-- C10: `upgrade_conn` performs no state check: from every state, including
`Sent` and `Unsent::CHUNKED`, it totally returns the connection with status
426, the `Upgrade`/`Connection: Upgrade` headers appended to the response
headers, and state `Unsent::UPGRADED` — in particular it moves a sent
connection back to an unsent state. -/
theorem upgrade_conn_unguarded (c : Conn α κ) (protocol : String) :
    Conn.upgrade_conn c protocol =
      { c with status := some 426,
               resp_headers := c.resp_headers ++ [("Upgrade", protocol), ("Connection", "Upgrade")],
               state := ConnState.unsent Unsent.UPGRADED } := by
  unfold Conn.upgrade_conn hdrInsert
  simp

/-- C4: `resp` on a connection in any `Unsent` state other than `CHUNKED` and
`UPGRADED` returns the connection with the given status and body and state
`Unsent::SET`; on `Sent`, `CHUNKED` or `UPGRADED` it raises the logic error
instead. -/
theorem resp_contract (c : Conn α κ) (st : Nat) (b : String) :
    (∀ u, c.state = ConnState.unsent u → u ≠ Unsent.CHUNKED → u ≠ Unsent.UPGRADED →
      Conn.resp c st b = Except.ok
        { c with state := ConnState.unsent Unsent.SET,
                 status := some st, resp_body := some b }) ∧
    ((c.state = ConnState.sent ∨ c.state = ConnState.unsent Unsent.CHUNKED ∨
        c.state = ConnState.unsent Unsent.UPGRADED) →
      Conn.resp c st b = Except.error "Conn already sent") := by
  constructor
  · intro u hu h1 h2
    have hg : guardedState c.state = false := by
      rw [hu]; unfold guardedState; simp [h1, h2]
    unfold Conn.resp
    simp [hg]
  · intro hc
    have hg : guardedState c.state = true := by
      rcases hc with h | h | h <;> rw [h] <;> rfl
    unfold Conn.resp
    simp [hg]

/-- Witness for C4 at a fresh connection and at a sent connection. -/
theorem resp_contract_witness :
    Conn.resp conn0 200 "ok" = Except.ok
      { conn0 with state := ConnState.unsent Unsent.SET,
                   status := some 200, resp_body := some "ok" } ∧
    Conn.resp connSent 200 "ok" = Except.error "Conn already sent" :=
  ⟨(resp_contract conn0 200 "ok").1 Unsent.UNSET rfl (by decide) (by decide),
   (resp_contract connSent 200 "ok").2 (Or.inl rfl)⟩

/-- C8: `put_resp_header` returns `Err` whenever the value contains a newline
or carriage return (in any state, hence in particular in the mutable ones),
and every `Err` it returns carries the unmodified input connection as its
payload. -/
theorem put_resp_header_injection (c : Conn α κ) (key value : String) :
    ((value.toList.contains '\n' = true ∨ value.toList.contains '\r' = true) →
      (Conn.put_resp_header c key value).1 = ResultType.Err) ∧
    ((Conn.put_resp_header c key value).1 = ResultType.Err →
      (Conn.put_resp_header c key value).2 = c) := by
  constructor
  · intro hv
    unfold Conn.put_resp_header
    rcases hv with h | h <;> simp at h <;> simp [h]
  · intro he
    unfold Conn.put_resp_header at he ⊢
    split at he
    · split
      · rfl
      · simp_all
    · simp at he

/-- Witness for C8: both newline and carriage-return values are rejected on a
fresh connection, and the `Err` payload is the input connection. -/
theorem put_resp_header_injection_witness :
    (Conn.put_resp_header conn0 "x" "a\nb").1 = ResultType.Err ∧
    (Conn.put_resp_header conn0 "x" "a\rb").1 = ResultType.Err ∧
    (Conn.put_resp_header conn0 "x" "a\nb").2 = conn0 :=
  ⟨(put_resp_header_injection conn0 "x" "a\nb").1 (Or.inl (by decide)),
   (put_resp_header_injection conn0 "x" "a\rb").1 (Or.inr (by decide)),
   (put_resp_header_injection conn0 "x" "a\nb").2
     ((put_resp_header_injection conn0 "x" "a\nb").1 (Or.inl (by decide)))⟩

/-- C1 counterexample: the claim says every listed mutator returns `Err` once
the state is `Sent` (or chunked/upgraded) — but `put_resp_cookie`, which the
claim lists, performs no state check and returns `Ok` on a sent connection,
and `delete_req_header`, also listed, returns `Ok` on a chunked
connection. -/
theorem state_guard_counterexample :
    (Conn.put_resp_cookie connSent "a" "b" []).1 = ResultType.Ok ∧
    ¬((Conn.put_resp_cookie connSent "a" "b" []).1 = ResultType.Err) ∧
    (Conn.delete_req_header connChunked "x").1 = ResultType.Ok := by
  refine ⟨rfl, by decide, rfl⟩

/-- C1 amended: in the states `Sent`, `Unsent::CHUNKED`, `Unsent::UPGRADED`,
the ten header/status mutators that carry the guard return `Err` for all
inputs; `delete_req_header` returns `Err` exactly on `Sent`;
`put_resp_cookie` ignores the state and succeeds (absent the sign+encrypt
conflict), `delete_resp_cookie` ignores the state and can only touch the
staged cookies, and `put_resp_content_type` raises the `unwrap` error instead
of returning `Err`. -/
theorem state_guard_amended (c : Conn α κ) (k v i ct ch : String) (hdrs : Headers)
    (f : String → String) (st : Nat)
    (hc : c.state = ConnState.sent ∨ c.state = ConnState.unsent Unsent.CHUNKED ∨
          c.state = ConnState.unsent Unsent.UPGRADED) :
    (Conn.put_req_header c k v).1 = ResultType.Err ∧
    (Conn.merge_req_headers c hdrs).1 = ResultType.Err ∧
    (Conn.prepend_req_headers c hdrs).1 = ResultType.Err ∧
    (Conn.update_req_header c k i f).1 = ResultType.Err ∧
    (Conn.put_resp_header c k v).1 = ResultType.Err ∧
    (Conn.merge_resp_headers c hdrs).1 = ResultType.Err ∧
    (Conn.prepend_resp_header c hdrs).1 = ResultType.Err ∧
    (Conn.update_resp_header c k i f).1 = ResultType.Err ∧
    (Conn.delete_resp_header c k).1 = ResultType.Err ∧
    (Conn.put_status c st).1 = ResultType.Err ∧
    ((Conn.delete_req_header c k).1 = ResultType.Err ↔ c.state = ConnState.sent) ∧
    (Conn.put_resp_cookie c k v []).1 = ResultType.Ok ∧
    (Conn.delete_resp_cookie c k []
      = { c with resp_cookies := (Conn.delete_resp_cookie c k []).resp_cookies }) ∧
    (∃ e, Conn.put_resp_content_type c ct ch = Except.error e) := by
  have hg : guardedState c.state = true := by
    rcases hc with h | h | h <;> rw [h] <;> rfl
  refine ⟨?_, ?_, ?_, ?_, ?_, ?_, ?_, ?_, ?_, ?_, ?_, ?_, ?_, ?_⟩
  · unfold Conn.put_req_header; simp [hg]
  · unfold Conn.merge_req_headers; simp [hg]
  · unfold Conn.prepend_req_headers; simp [hg]
  · unfold Conn.update_req_header; simp [hg]
  · unfold Conn.put_resp_header; simp [hg]
  · unfold Conn.merge_resp_headers; simp [hg]
  · unfold Conn.prepend_resp_header; simp [hg]
  · unfold Conn.update_resp_header; simp [hg]
  · unfold Conn.delete_resp_header; simp [hg]
  · unfold Conn.put_status; simp [hg]
  · unfold Conn.delete_req_header
    by_cases hs : c.state = ConnState.sent <;> simp [hs]
  · rfl
  · rfl
  · refine ⟨"unwrap a result on error", ?_⟩
    unfold Conn.put_resp_content_type Conn.put_resp_header
    simp [hg]

/-- Witness for C1 amended at a sent connection. -/
theorem state_guard_amended_witness :
    (Conn.put_req_header connSent "x" "y").1 = ResultType.Err ∧
    (Conn.put_resp_cookie connSent "x" "y" []).1 = ResultType.Ok :=
  ⟨(state_guard_amended connSent "x" "y" "i" "t" "c" [] id 200 (Or.inl rfl)).1,
   (state_guard_amended connSent "x" "y" "i" "t" "c" [] id 200
      (Or.inl rfl)).2.2.2.2.2.2.2.2.2.2.2.1⟩

/-- C9: `put_resp_cookie` fails, leaving the connection (hence the staged
cookies) unchanged, when both `sign` and `encrypt` are present; otherwise it
succeeds and stages, under the cookie name, an attribute map whose `value`
entry is the literal `key + "_cookie=" + value` and which carries neither
flag; a subsequent `delete_resp_cookie` (default options) overwrites that map
with the epoch `universal_time`, `max_age = "0"`, `secure` exactly for the
https scheme, and no `value` entry; and `delete_resp_cookie` on a key that
was never staged is a no-op. -/
theorem cookie_round_trip (c : Conn α κ) (k v : String) (opts : SMap)
    (hma : MaxAgeNum opts) :
    ((alFind opts "sign").isSome = true → (alFind opts "encrypt").isSome = true →
      Conn.put_resp_cookie c k v opts = (ResultType.Err, c)) ∧
    ((alFind opts "sign").isSome = false ∨ (alFind opts "encrypt").isSome = false →
      (Conn.put_resp_cookie c k v opts).1 = ResultType.Ok ∧
      ∃ m, alFind (Conn.put_resp_cookie c k v opts).2.resp_cookies k = some m ∧
        alFind m "value" = some (k ++ "_cookie=" ++ v) ∧
        alFind m "sign" = none ∧ alFind m "encrypt" = none) ∧
    (alFind (Conn.delete_resp_cookie (Conn.put_resp_cookie c k v []).2 k []).resp_cookies k
      = some (if c.scheme = "https"
              then [("universal_time", "Thu, 01 Jan 1970 00:00:00 GMT"), ("max_age", "0"),
                    ("secure", "true")]
              else [("universal_time", "Thu, 01 Jan 1970 00:00:00 GMT"), ("max_age", "0")])) ∧
    (alFind c.resp_cookies k = none → Conn.delete_resp_cookie c k opts = c) := by
  refine ⟨?_, ?_, ?_, ?_⟩
  · intro hs he
    unfold Conn.put_resp_cookie
    simp [hs, he]
  · intro hor
    have hcond : ((alFind opts "sign").isSome && (alFind opts "encrypt").isSome) = false := by
      rcases hor with h | h <;> simp [h]
    unfold Conn.put_resp_cookie
    simp only [hcond, Bool.false_eq_true, if_false]
    refine ⟨by trivial, alSet (alErase (alErase opts "sign") "encrypt") "value" (k ++ "_cookie=" ++ v),
      ?_, ?_, ?_, ?_⟩
    · exact alFind_alSet_self _ _ _
    · exact alFind_alSet_self _ _ _
    · rw [alFind_alSet_ne _ _ _ _ (by decide),
        alFind_alErase_ne _ _ _ (by decide), alFind_alErase_self]
    · rw [alFind_alSet_ne _ _ _ _ (by decide), alFind_alErase_self]
  · unfold Conn.delete_resp_cookie Conn.put_resp_cookie
    simp only [alFind, Option.isSome_none, Bool.and_self, Bool.false_eq_true, if_false]
    rw [alFind_alUpdateIfExists_self, alFind_alSet_self]
    by_cases hsch : c.scheme = "https" <;> simp [hsch, alSet]
  · intro habs
    unfold Conn.delete_resp_cookie
    simp only [alUpdateIfExists_absent _ _ _ habs]

/-- Witness for C9 at the example of the spec: `put_resp_cookie(c, "test",
"v")` stages the literal value `test_cookie=v`. -/
theorem cookie_round_trip_witness :
    (Conn.put_resp_cookie conn0 "test" "v" []).1 = ResultType.Ok ∧
    ∃ m, alFind (Conn.put_resp_cookie conn0 "test" "v" []).2.resp_cookies "test" = some m ∧
      alFind m "value" = some ("test" ++ "_cookie=" ++ "v") ∧
      alFind m "sign" = none ∧ alFind m "encrypt" = none :=
  (cookie_round_trip conn0 "test" "v" [] (by decide)).2.1 (Or.inl rfl)

theorem put_resp_header_frame (c : Conn α κ) (k v : String) :
    (Conn.put_resp_header c k v).2
      = { c with resp_headers := (Conn.put_resp_header c k v).2.resp_headers } := by
  unfold Conn.put_resp_header
  split <;> rfl

theorem fetch_query_params_cases (c : Conn α κ) (qopts : SMap) :
    Conn.fetch_query_params c qopts = c ∨
    Conn.fetch_query_params c qopts = { c with status := some 414 } ∨
    ∃ qp, Conn.fetch_query_params c qopts = { c with query_params := some qp } := by
  unfold Conn.fetch_query_params
  split
  · exact Or.inl rfl
  · repeat' split
    all_goals first
      | exact Or.inr (Or.inl rfl)
      | exact Or.inr (Or.inr ⟨_, rfl⟩)

/-- C2: every mutating operation is a pure function of the input connection
returning a new connection — the embedding of each operation constructs a
copy, and this theorem pins down the frame: the returned connection (the
`Err` payload included) agrees with the input on every field other than the
ones the operation is documented to change, so reading any observable field
of the original after the call yields the value it had before. -/
theorem conn_persistence (c : Conn α κ) (k v i ct ch proto : String) (a : α)
    (m : List (String × α)) (hdrs : Headers) (f : String → String) (st : Nat) (cb : κ)
    (copts : List String) (qopts sopts : SMap)
    (hlen : LengthNum qopts) (hma : MaxAgeNum sopts) :
    (Conn.assign c k a = { c with assigns := (Conn.assign c k a).assigns }) ∧
    (Conn.merge_assigns c m = { c with assigns := (Conn.merge_assigns c m).assigns }) ∧
    (Conn.put_session c k a
      = { c with session_copy := (Conn.put_session c k a).session_copy }) ∧
    (Conn.delete_session c k
      = { c with session_copy := (Conn.delete_session c k).session_copy }) ∧
    (Conn.clear_session c
      = { c with session_copy := [], session_info := SessionOpt.WRITE }) ∧
    (Conn.halt c = { c with halted := true }) ∧
    (Conn.fetch_cookies c copts
      = { c with req_cookies := (Conn.fetch_cookies c copts).req_cookies,
                 cookies := (Conn.fetch_cookies c copts).cookies }) ∧
    (Conn.fetch_query_params c qopts
      = { c with query_params := (Conn.fetch_query_params c qopts).query_params,
                 status := (Conn.fetch_query_params c qopts).status }) ∧
    ((Conn.put_req_header c k v).2
      = { c with host := (Conn.put_req_header c k v).2.host,
                 req_headers := (Conn.put_req_header c k v).2.req_headers }) ∧
    ((Conn.update_req_header c k i f).2
      = { c with req_headers := (Conn.update_req_header c k i f).2.req_headers }) ∧
    ((Conn.prepend_req_headers c hdrs).2
      = { c with host := (Conn.prepend_req_headers c hdrs).2.host,
                 req_headers := (Conn.prepend_req_headers c hdrs).2.req_headers }) ∧
    ((Conn.merge_req_headers c hdrs).2
      = { c with host := (Conn.merge_req_headers c hdrs).2.host,
                 req_headers := (Conn.merge_req_headers c hdrs).2.req_headers }) ∧
    ((Conn.delete_req_header c k).2
      = { c with req_headers := (Conn.delete_req_header c k).2.req_headers }) ∧
    ((Conn.put_resp_header c k v).2
      = { c with resp_headers := (Conn.put_resp_header c k v).2.resp_headers }) ∧
    ((Conn.merge_resp_headers c hdrs).2
      = { c with resp_headers := (Conn.merge_resp_headers c hdrs).2.resp_headers }) ∧
    ((Conn.prepend_resp_header c hdrs).2
      = { c with resp_headers := (Conn.prepend_resp_header c hdrs).2.resp_headers }) ∧
    ((Conn.update_resp_header c k i f).2
      = { c with resp_headers := (Conn.update_resp_header c k i f).2.resp_headers }) ∧
    ((Conn.delete_resp_header c k).2
      = { c with resp_headers := (Conn.delete_resp_header c k).2.resp_headers }) ∧
    ((Conn.put_status c st).2 = { c with status := (Conn.put_status c st).2.status }) ∧
    ((Conn.put_resp_cookie c k v sopts).2
      = { c with resp_cookies := (Conn.put_resp_cookie c k v sopts).2.resp_cookies }) ∧
    (Conn.delete_resp_cookie c k sopts
      = { c with resp_cookies := (Conn.delete_resp_cookie c k sopts).resp_cookies }) ∧
    (∀ c', Conn.register_before_send c cb = Except.ok c' →
      c' = { c with callbacks_before_send := c.callbacks_before_send ++ [cb] }) ∧
    (∀ c', Conn.resp c st v = Except.ok c' →
      c' = { c with state := c'.state, status := c'.status, resp_body := c'.resp_body }) ∧
    (∀ c', Conn.put_resp_content_type c ct ch = Except.ok c' →
      c' = { c with resp_headers := c'.resp_headers }) ∧
    (Conn.upgrade_conn c proto
      = { c with status := some 426,
                 resp_headers := (Conn.upgrade_conn c proto).resp_headers,
                 state := ConnState.unsent Unsent.UPGRADED }) := by
  refine ⟨rfl, rfl, rfl, rfl, rfl, rfl, ?_, ?_, ?_, ?_, ?_, ?_, ?_, ?_, ?_, ?_, ?_, ?_,
    ?_, ?_, rfl, ?_, ?_, ?_, rfl⟩
  · unfold Conn.fetch_cookies
    split <;> rfl
  · rcases fetch_query_params_cases c qopts with h | h | ⟨qp, h⟩ <;> rw [h]
  · unfold Conn.put_req_header
    split
    · rfl
    · split <;> rfl
  · unfold Conn.update_req_header
    split
    · rfl
    · split <;> rfl
  · unfold Conn.prepend_req_headers
    split
    · rfl
    · split <;> rfl
  · unfold Conn.merge_req_headers
    split
    · rfl
    · split <;> rfl
  · unfold Conn.delete_req_header
    split <;> rfl
  · unfold Conn.put_resp_header
    split <;> rfl
  · unfold Conn.merge_resp_headers
    split <;> rfl
  · unfold Conn.prepend_resp_header
    split <;> rfl
  · unfold Conn.update_resp_header
    split
    · rfl
    · split <;> rfl
  · unfold Conn.delete_resp_header
    split <;> rfl
  · unfold Conn.put_status
    split <;> rfl
  · unfold Conn.put_resp_cookie
    split <;> rfl
  · intro c' hc'
    unfold Conn.register_before_send at hc'
    split at hc'
    · simp at hc'
    · injection hc' with hc'
      rw [← hc']
  · intro c' hc'
    unfold Conn.resp at hc'
    split at hc'
    · simp at hc'
    · injection hc' with hc'
      rw [← hc']
  · intro c' hc'
    unfold Conn.put_resp_content_type at hc'
    rcases hres : Conn.put_resp_header c "Content-Type"
        (if ch = "none" then ct else ct ++ "; charset=" ++ ch) with ⟨rt, c2⟩
    rw [hres] at hc'
    have hframe := put_resp_header_frame c "Content-Type"
      (if ch = "none" then ct else ct ++ "; charset=" ++ ch)
    rw [hres] at hframe
    cases rt
    · injection hc' with hc'
      rw [← hc']
      exact hframe
    · simp at hc'
    · injection hc' with hc'
      rw [← hc']
      exact hframe

/-- Witness for C2 at a fresh connection: assigning does not disturb the
original's fields (its assigns are read back through the frame equation). -/
theorem conn_persistence_witness :
    Conn.assign conn0 "k" 5
      = { conn0 with assigns := (Conn.assign conn0 "k" 5).assigns } :=
  (conn_persistence conn0 "k" "v" "i" "t" "c" "p" 5 [] [] id 200 7 [] [] []
    (by decide) (by decide)).1

/-- C5: both fetches are idempotent — the second application returns the very
same snapshot, on the populating path (the `Option` is filled, so the second
call is the identity) and on the early 414 paths of `fetch_query_params`,
which leave `query_params` empty but recompute the same 414 result. -/
theorem fetch_idempotent (c : Conn α κ) (copts : List String) (qopts : SMap)
    (hlen : LengthNum qopts) :
    Conn.fetch_cookies (Conn.fetch_cookies c copts) copts = Conn.fetch_cookies c copts ∧
    Conn.fetch_query_params (Conn.fetch_query_params c qopts) qopts
      = Conn.fetch_query_params c qopts := by
  constructor
  · by_cases h : c.req_cookies.isSome <;> simp [Conn.fetch_cookies, h]
  · by_cases h1 : c.query_params.isSome
    · have hfc : Conn.fetch_query_params c qopts = c := by
        unfold Conn.fetch_query_params; simp [h1]
      rw [hfc]; exact hfc
    · by_cases h2 : c.query_string.length >
          (match alFind qopts "length" with
           | some s => (stoiNat s).getD 0
           | none => 1000000)
      · have hfc : Conn.fetch_query_params c qopts = { c with status := some 414 } := by
          unfold Conn.fetch_query_params; simp [h1, h2]
        rw [hfc]
        unfold Conn.fetch_query_params
        simp [h1, h2]
      · rcases hloop : fqpLoop qopts (splitSep 38 c.query_string) [] with _ | qp
        · have hfc : Conn.fetch_query_params c qopts = { c with status := some 414 } := by
            unfold Conn.fetch_query_params; simp [h1, h2, hloop]
          rw [hfc]
          unfold Conn.fetch_query_params
          simp [h1, h2, hloop]
        · have hfc : Conn.fetch_query_params c qopts
              = { c with query_params := some qp } := by
            unfold Conn.fetch_query_params; simp [h1, h2, hloop]
          rw [hfc]
          unfold Conn.fetch_query_params
          simp

/-- Witness for C5, exercising a 414 error path: the bad-UTF-8 query makes
`fetch_query_params` set 414 without populating `query_params`, and fetching
again returns the same snapshot; `fetch_cookies` likewise. -/
theorem fetch_idempotent_witness :
    Conn.fetch_cookies (Conn.fetch_cookies connBadUtf8 []) []
      = Conn.fetch_cookies connBadUtf8 [] ∧
    Conn.fetch_query_params (Conn.fetch_query_params connBadUtf8 []) []
      = Conn.fetch_query_params connBadUtf8 [] :=
  fetch_idempotent connBadUtf8 [] [] (by decide)

/-- C6: the code does not honour `validate_utf8`.  The option read when
deciding whether to validate is `"length"`, not `"validate_utf8"` (the doc
comment of `fetch_query_params` documents a `validate_utf8` option defaulting
to true), so passing `validate_utf8 = "false"` still validates: on the query
string `a=` + byte 0xFF the call sets status 414 and leaves `query_params`
empty although the claim requires validation to be skipped. -/
theorem validate_flag_ignored :
    Conn.fetch_query_params connBadUtf8 [("validate_utf8", "false")]
      = { connBadUtf8 with status := some 414 } ∧
    (Conn.fetch_query_params connBadUtf8 [("validate_utf8", "false")]).query_params
      = none := by
  constructor
  · rfl
  · rfl

/-- C3: router dispatch.  For a router with one scope at prefix `"/"` whose
pipeline is `P`: a GET route `"/posts"` with handler `H` dispatches a GET for
`/posts` to `H (P conn)`; the same route registered with the null handler
runs only the pipeline; and a GET for `/unknown`, matched by no route table,
returns the input connection unchanged (no 404 is set). -/
theorem router_dispatch (h : String → Nat) (P H : Conn α κ → Conn α κ) (c : Conn α κ) :
    (Router.handler
        (Router.scope h { pipelines := [], scopes := ⟨[]⟩ } "/"
          { pipeline := P, get := [("/posts", some H)], post := [], put := [], del := [] })
        { c with method := "get", request_path := "/posts" }
      = H (P { c with method := "get", request_path := "/posts" })) ∧
    (Router.handler
        (Router.scope h { pipelines := [], scopes := ⟨[]⟩ } "/"
          { pipeline := P, get := [("/posts", none)], post := [], put := [], del := [] })
        { c with method := "get", request_path := "/posts" }
      = P { c with method := "get", request_path := "/posts" }) ∧
    (Router.handler
        (Router.scope h { pipelines := [], scopes := ⟨[]⟩ } "/"
          { pipeline := P, get := [("/posts", some H)], post := [], put := [], del := [] })
        { c with method := "get", request_path := "/unknown" }
      = { c with method := "get", request_path := "/unknown" }) := by
  refine ⟨rfl, rfl, rfl⟩

theorem mm_insert_lookupAll {ν : Type} (h : String → Nat) (m : Multimap ν) (k : String)
    (v : ν) : (m.insert h (k, v)).lookupAll k = m.lookupAll k ++ [v] := by
  unfold Multimap.insert Multimap.lookupAll
  split
  · rename_i hcond
    rcases Option.isSome_iff_exists.mp hcond with ⟨vs, hvs⟩
    rw [alFind_mapAppend, hvs]
    rfl
  · rename_i hcond
    have hn : alFind m.entries k = none := by
      cases hfind : alFind m.entries k
      · rfl
      · rw [hfind] at hcond; simp at hcond
    rw [alFind_insertByHash_self h k [v] _ hn, hn]
    rfl

/-- C7 counterexample: the scope registry does not preserve registration
order across prefixes, and dispatch does not visit scopes in registration
order.  `routerC7` registers the `"/ab"` scope before the `"/a"` scope; under
the (unspecified, here instantiated) key order of the backing hash map the
registry iterates `"/a"` first, and dispatching GET `/ab` — which both scopes
route — runs the later-registered scope's handler (status 2), not the
first-registered one (status 1). -/
theorem scope_order_counterexample :
    routerC7.scopes.entries.map Prod.fst = ["/a", "/ab"] ∧
    ¬(routerC7.scopes.entries.map Prod.fst = ["/ab", "/a"]) ∧
    (Router.handler routerC7 connAB).status = some 2 ∧
    ¬((Router.handler routerC7 connAB).status = some 1) := by
  refine ⟨rfl, by decide, rfl, by decide⟩

/-- C7 amended: registration order is preserved among scopes sharing a
prefix — registering twice under one prefix appends to that prefix's vector,
which the dispatch inner loop visits front to back — while distinct prefixes
are iterated in the backing map's hash-determined key order, which need not
be registration order. -/
theorem scope_order_amended (h : String → Nat) (r : Router α κ) (name : String)
    (s1 s2 : Scope α κ) :
    (Router.scope h (Router.scope h r name s1) name s2).scopes.lookupAll name
      = r.scopes.lookupAll name ++ [s1, s2] := by
  unfold Router.scope
  rw [mm_insert_lookupAll, mm_insert_lookupAll, List.append_assoc]
  rfl

end Feather
